import Mathlib

/-!
Verification of the Terraria-clone world simulation (main.js and the
unnamed full variant of the same game).  JavaScript numbers are modelled
as rationals (every constant appearing in the source is an exact decimal,
and every comparison made by the code distinguishes values far coarser
than the float grid, so the rational model agrees with the float
semantics on all the runs considered here).  The mutable 2D tile array
is modelled as a total function `Int → Int → Nat` updated pointwise.
-/

set_option maxRecDepth 100000

namespace Terraria

/- ## Configuration constants (main.js lines 10-25, identical in the full variant) -/

def TILE_SIZE : ℚ := 24

def WORLD_WIDTH : Int := 200

def WORLD_HEIGHT : Int := 120

def GRAVITY : ℚ := 0.6

def TERMINAL_VELOCITY : ℚ := 18

def REACH : ℚ := 6

/- ## Tile identifiers (the TILE object) -/

namespace TILE

def AIR : Nat := 0

def GRASS : Nat := 1

def DIRT : Nat := 2

def STONE : Nat := 3

def WOOD : Nat := 4

def SAND : Nat := 5

def GLASS : Nat := 6

def TORCH : Nat := 7

def BRICK : Nat := 8

end TILE

/- ## Tile grid and bounds-checked accessors -/

/-- The tile grid, modelled as a total function from integer coordinates to
tile ids.  The source's `world[ty][tx]` array only ever stores cells with
`0 ≤ tx < WORLD_WIDTH`, `0 ≤ ty < WORLD_HEIGHT`; all access from game code
goes through `getTile`/`setTile` below, which guard exactly as the source. -/
abbrev Grid := Int → Int → Nat

/-- Source `inBounds(tx, ty)`. -/
def inBounds (tx ty : Int) : Prop :=
  0 ≤ tx ∧ 0 ≤ ty ∧ tx < WORLD_WIDTH ∧ ty < WORLD_HEIGHT

instance (tx ty : Int) : Decidable (inBounds tx ty) := by
  unfold inBounds; infer_instance

/-- Source `isSolid(tileId)`: everything but Air is solid. -/
def isSolid (tileId : Nat) : Bool := tileId != TILE.AIR

/-- Source `getTile(tx, ty)`: out-of-bounds reads return the solid sentinel
Stone. -/
def getTile (g : Grid) (tx ty : Int) : Nat :=
  if inBounds tx ty then g tx ty else TILE.STONE

/-- Source `setTile(tx, ty, id)`: out-of-bounds writes are a no-op, in-bounds
writes replace the stored tile unconditionally. -/
def setTile (g : Grid) (tx ty : Int) (id : Nat) : Grid :=
  if inBounds tx ty then (fun X Y => if X = tx ∧ Y = ty then id else g X Y) else g

/- ## Collision resolver (`aabbVsTiles`, identical in both variants) -/

/-- Result record of `aabbVsTiles`. -/
structure CollideOut where
  x : ℚ
  y : ℚ
  grounded : Bool
  hitX : Bool
  hitY : Bool
deriving DecidableEq

/-- Outcome of one axis sweep: either an early `return` from inside the loop
with a full result, or fall-through with the final swept coordinate. -/
inductive SweepRes where
  | hit (out : CollideOut)
  | pass (v : ℚ)
deriving DecidableEq

/-- Math.sign on rationals. -/
def jsSign (q : ℚ) : ℚ := if 0 < q then 1 else if q < 0 then -1 else 0

/-- Tile index of a world coordinate: `Math.floor(v / TILE_SIZE)`. -/
def tileFloor (v : ℚ) : Int := Int.floor (v / TILE_SIZE)

/-- The inclusive integer range `[a, b]` scanned by the tile loops. -/
def scanRange (a b : Int) : List Int :=
  (List.range (b + 1 - a).toNat).map (fun i : Nat => a + (i : Int))

/-- Fuel that strictly dominates the number of iterations of a sweep loop
(the loop advances `moved` by `stepAbs` each iteration while `moved < dist`). -/
def sweepFuel (dist stepAbs : ℚ) : Nat := (Int.ceil (dist / stepAbs)).toNat + 1

/-- The horizontal sweep loop of `aabbVsTiles` (`for (let moved = 0; ...)`).
Arguments `adx = Math.abs(dx)`, `dirq = Math.sign(dx)`,
`stepAbs = Math.min(Math.abs(dx), TILE_SIZE)`; `moved` and `newX` are the
loop-carried variables.  The fuel bound never fires before the loop's own
exit condition when called with `sweepFuel`. -/
def hSweepLoop (g : Grid) (px py pw ph adx dirq stepAbs : ℚ) :
    Nat → ℚ → ℚ → SweepRes
  | 0, _, newX => .pass newX
  | fuel + 1, moved, newX =>
    if moved < adx then
      let nextX := px + min adx (moved + stepAbs) * dirq
      let left := tileFloor (nextX - pw / 2)
      let right := tileFloor (nextX + pw / 2)
      let top := tileFloor (py - ph / 2)
      let bottom := tileFloor (py + ph / 2 - 1)
      if (scanRange top bottom).any
          (fun ty => isSolid (getTile g (if 0 < dirq then right else left) ty)) then
        .hit { x := if 0 < dirq then (right : ℚ) * TILE_SIZE - pw / 2
                    else ((left + 1 : Int) : ℚ) * TILE_SIZE + pw / 2,
               y := py, grounded := false, hitX := true, hitY := false }
      else hSweepLoop g px py pw ph adx dirq stepAbs fuel (moved + stepAbs) nextX
    else .pass newX

/-- The vertical sweep loop of `aabbVsTiles`.  `newX` is the already-resolved
horizontal position; moving down (`0 < dirq`) checks the `bottom` row and on
contact snaps to rest on top of it with `grounded = true`; moving up checks
the `top` row and snaps just below it. -/
def vSweepLoop (g : Grid) (newX py pw ph ady dirq stepAbs : ℚ) :
    Nat → ℚ → ℚ → SweepRes
  | 0, _, newY => .pass newY
  | fuel + 1, moved, newY =>
    if moved < ady then
      let nextY := py + min ady (moved + stepAbs) * dirq
      let left := tileFloor (newX - pw / 2)
      let right := tileFloor (newX + pw / 2)
      let top := tileFloor (nextY - ph / 2)
      let bottom := tileFloor (nextY + ph / 2 - 1)
      if (scanRange left right).any
          (fun tx => isSolid (getTile g tx (if 0 < dirq then bottom else top))) then
        if 0 < dirq then
          .hit { x := newX, y := (bottom : ℚ) * TILE_SIZE - ph / 2,
                 grounded := true, hitX := false, hitY := true }
        else
          .hit { x := newX, y := ((top + 1 : Int) : ℚ) * TILE_SIZE + ph / 2,
                 grounded := false, hitX := false, hitY := true }
      else vSweepLoop g newX py pw ph ady dirq stepAbs fuel (moved + stepAbs) nextY
    else .pass newY

/-- Source `aabbVsTiles(px, py, pw, ph, dx, dy)`: horizontal sweep first
(early return on contact), then the vertical sweep from the resolved
horizontal position, then the fall-through result `position + delta`. -/
def aabbVsTiles (g : Grid) (px py pw ph dx dy : ℚ) : CollideOut :=
  let hres :=
    if dx ≠ 0 then
      hSweepLoop g px py pw ph |dx| (jsSign dx) (min |dx| TILE_SIZE)
        (sweepFuel |dx| (min |dx| TILE_SIZE)) 0 (px + dx)
    else .pass (px + dx)
  match hres with
  | .hit out => out
  | .pass newX =>
    let vres :=
      if dy ≠ 0 then
        vSweepLoop g newX py pw ph |dy| (jsSign dy) (min |dy| TILE_SIZE)
          (sweepFuel |dy| (min |dy| TILE_SIZE)) 0 (py + dy)
      else .pass (py + dy)
    match vres with
    | .hit out => out
    | .pass newY => { x := newX, y := newY, grounded := false, hitX := false, hitY := false }

/- ## Seeded random generator (`mulberry32`) -/

/-- One call of the `mulberry32` closure, in 32-bit unsigned view.  The JS
code keeps the state `a` as an unwrapped float, but every use of the state
passes through 32-bit coercion and the per-call increment commutes with
reduction mod 2^32, so tracking the state modulo 2^32 is exact.  Returns
(new state, output word r); the JS float result is `r / 4294967296`, so a
comparison `rand() < c` is exactly `r < c * 4294967296` and
`Math.floor(rand() * k)` is exactly `k * r / 4294967296` in integers. -/
def mulberry32 (a : Nat) : Nat × Nat :=
  let a1 := (a + 0x6d2b79f5) % 4294967296
  let t1 := (Nat.xor a1 (a1 >>> 15)) * (a1 ||| 1) % 4294967296
  let t2 := Nat.xor t1 ((t1 + (Nat.xor t1 (t1 >>> 7)) * (t1 ||| 61) % 4294967296) % 4294967296)
  (a1, Nat.xor t2 (t2 >>> 14))

/-- Value of `Math.sign((rand() - 0.5) * 2)` for output word `r`:
the argument is positive exactly when `r > 2^31`, zero when `r = 2^31`. -/
def signHalfStep (r : Nat) : Int :=
  if 2147483648 < r then 1 else if r < 2147483648 then -1 else 0

/- ## World generator (`generateWorld`, both variants) -/

/-- The heightmap loop: per column, draw `step` and the biased coin
(`rand() < 0.55`, i.e. `100 * r < 55 * 2^32`), move the random walk, clamp
to `[20, WORLD_HEIGHT - 15]` and record the height. -/
def heightsLoop : Nat → Int → Nat → List Int × Nat
  | 0, _, a => ([], a)
  | n + 1, h, a =>
    let d1 := mulberry32 a
    let d2 := mulberry32 d1.1
    let h1 := h + signHalfStep d1.2 * (if 100 * d2.2 < 55 * 4294967296 then 1 else 0)
    let h2 := max 20 (min (WORLD_HEIGHT - 15) h1)
    let rest := heightsLoop n h2 d2.1
    (h2 :: rest.1, rest.2)

/-- Heights for all columns; the starting height is
`Math.floor(WORLD_HEIGHT * 0.55) = 66`. -/
def generateHeights (seed : Nat) : List Int × Nat :=
  heightsLoop WORLD_WIDTH.toNat 66 seed

/-- Biomes of the full variant. -/
inductive Biome where
  | forest
  | desert
deriving DecidableEq

def biomeSwitch : Biome → Biome
  | .forest => .desert
  | .desert => .forest

/-- The biome-run loop of the full variant: when the current run length is
exhausted, switch biome and draw a fresh run length
`20 + Math.floor(rand() * 30)`; every column pushes the current biome and
decrements the run length. -/
def biomesLoop : Nat → Biome → Int → Nat → List Biome × Nat
  | 0, _, _, a => ([], a)
  | n + 1, cur, len, a =>
    if len ≤ 0 then
      let d := mulberry32 a
      let len1 : Int := 20 + ((30 * d.2 / 4294967296 : Nat) : Int)
      let rest := biomesLoop n (biomeSwitch cur) (len1 - 1) d.1
      (biomeSwitch cur :: rest.1, rest.2)
    else
      let rest := biomesLoop n cur (len - 1) a
      (cur :: rest.1, rest.2)

/-- Initial biome state: forest, with one run-length draw. -/
def generateBiomes (a : Nat) : List Biome × Nat :=
  let d := mulberry32 a
  biomesLoop WORLD_WIDTH.toNat .forest (20 + ((30 * d.2 / 4294967296 : Nat) : Int)) d.1

/-- Parameters of one stone patch: `sy = groundY + 5 + floor(rand()*10)`,
`sh = 3 + floor(rand()*4)`, `sw = 3 + floor(rand()*6)`. -/
structure Patch where
  sy : Int
  sh : Int
  sw : Int
deriving DecidableEq

/-- Per-column random features of the full variant. -/
structure ColOverlay where
  patch : Option Patch
  tree : Option Int
deriving DecidableEq

/-- The per-column feature draws of the full variant, in source order: the
patch trigger `rand() < 0.1` (i.e. `10 * r < 2^32`) with three parameter
draws when it fires, then — only in forest columns, by `&&` short-circuit —
the tree trigger `rand() < 0.03` (i.e. `100 * r < 3 * 2^32`) with one height
draw `5 + Math.floor(rand() * 3)` when it fires.  The triggers never depend
on the grid, so the draws are independent of the tile writes. -/
def overlaysLoopFull : List (Int × Biome) → Nat → List ColOverlay × Nat
  | [], a => ([], a)
  | (gY, b) :: rest, a =>
    let dp := mulberry32 a
    let pr : Option Patch × Nat :=
      if 10 * dp.2 < 4294967296 then
        let d1 := mulberry32 dp.1
        let d2 := mulberry32 d1.1
        let d3 := mulberry32 d2.1
        (some { sy := gY + 5 + ((10 * d1.2 / 4294967296 : Nat) : Int),
                sh := 3 + ((4 * d2.2 / 4294967296 : Nat) : Int),
                sw := 3 + ((6 * d3.2 / 4294967296 : Nat) : Int) }, d3.1)
      else (none, dp.1)
    let tr : Option Int × Nat :=
      if b = .forest then
        let dt := mulberry32 pr.2
        if 100 * dt.2 < 3 * 4294967296 then
          let dh := mulberry32 dt.1
          (some (5 + ((3 * dh.2 / 4294967296 : Nat) : Int)), dh.1)
        else (none, dt.1)
      else (none, pr.2)
    let restRes := overlaysLoopFull rest tr.2
    ({ patch := pr.1, tree := tr.1 } :: restRes.1, restRes.2)

/-- The per-column patch draws of the main.js variant.  The trigger is
`Math.random() < 0.1` — the UNSEEDED ambient generator, modelled as the
stream `u` consumed at one call per column — while the three parameter
draws still come from the seeded stream. -/
def overlaysLoopMain (u : Nat → ℚ) : List Int → Nat → Nat → List (Option Patch) × Nat
  | [], _, a => ([], a)
  | gY :: rest, k, a =>
    let pr : Option Patch × Nat :=
      if u k < 0.1 then
        let d1 := mulberry32 a
        let d2 := mulberry32 d1.1
        let d3 := mulberry32 d2.1
        (some { sy := gY + 5 + ((10 * d1.2 / 4294967296 : Nat) : Int),
                sh := 3 + ((4 * d2.2 / 4294967296 : Nat) : Int),
                sw := 3 + ((6 * d3.2 / 4294967296 : Nat) : Int) }, d3.1)
      else (none, a)
    let restRes := overlaysLoopMain u rest (k + 1) pr.2
    (pr.1 :: restRes.1, restRes.2)

/-- Computation twin of `overlaysLoopMain` for an ambient stream whose
every roll is under 0.1 (the trigger fires in every column); proven equal
to it in `overlaysLoopMain_all` below.  Contains no rational arithmetic,
so it evaluates inside the kernel. -/
def overlaysLoopMainAll : List Int → Nat → List (Option Patch) × Nat
  | [], a => ([], a)
  | gY :: rest, a =>
    let d1 := mulberry32 a
    let d2 := mulberry32 d1.1
    let d3 := mulberry32 d2.1
    let p : Option Patch :=
      some { sy := gY + 5 + ((10 * d1.2 / 4294967296 : Nat) : Int),
             sh := 3 + ((4 * d2.2 / 4294967296 : Nat) : Int),
             sw := 3 + ((6 * d3.2 / 4294967296 : Nat) : Int) }
    let restRes := overlaysLoopMainAll rest d3.1
    (p :: restRes.1, restRes.2)

/-- Tile layering for one column of the full variant (the inner `for y`
loop): writes every row `0 ≤ y < WORLD_HEIGHT` of column `x`, reading
nothing. -/
def fillColumnFull (g : Grid) (x gY : Int) (b : Biome) : Grid :=
  fun X Y =>
    if X = x ∧ 0 ≤ Y ∧ Y < WORLD_HEIGHT then
      if gY + 20 < Y then TILE.STONE
      else if gY + 3 < Y then TILE.DIRT
      else if Y = gY then (if b = .desert then TILE.SAND else TILE.GRASS)
      else if gY < Y ∧ Y ≤ gY + 3 then (if b = .desert then TILE.SAND else TILE.DIRT)
      else TILE.AIR
    else g X Y

/-- Tile layering for one column of the main.js variant (no biomes). -/
def fillColumnMain (g : Grid) (x gY : Int) : Grid :=
  fun X Y =>
    if X = x ∧ 0 ≤ Y ∧ Y < WORLD_HEIGHT then
      if gY + 20 < Y then TILE.STONE
      else if gY + 3 < Y then TILE.DIRT
      else if Y = gY then TILE.GRASS
      else if gY < Y ∧ Y ≤ gY + 3 then TILE.DIRT
      else TILE.AIR
    else g X Y

/-- Stone patch overlay (the `yy`/`xx` double loop starting at column `x`).
Each visited in-range cell that is not Air becomes Stone.  The loop's reads
and writes commute cell-by-cell: a write only turns a non-Air cell into the
non-Air Stone, so it never changes the `!== AIR` test of a later cell, and
the pointwise form below is the loop's exact effect. -/
def applyPatch (g : Grid) (x : Int) (p : Patch) : Grid :=
  fun X Y =>
    if x ≤ X ∧ X < x + p.sw ∧ X < WORLD_WIDTH ∧ p.sy ≤ Y ∧ Y < p.sy + p.sh ∧
        Y < WORLD_HEIGHT ∧ g X Y ≠ TILE.AIR
    then TILE.STONE else g X Y

/-- Wood trunk overlay of the full variant: rows `groundY - treeHeight` up
to `groundY - 1` of column `x`, skipping negative rows, become Wood. -/
def applyTree (g : Grid) (x gY th : Int) : Grid :=
  fun X Y =>
    if X = x ∧ gY - th ≤ Y ∧ Y ≤ gY - 1 ∧ 0 ≤ Y then TILE.WOOD else g X Y

def applyPatchOpt (g : Grid) (x : Int) : Option Patch → Grid
  | some p => applyPatch g x p
  | none => g

def applyTreeOpt (g : Grid) (x gY : Int) : Option Int → Grid
  | some th => applyTree g x gY th
  | none => g

/-- One column iteration of the full variant: layer fill, then the optional
stone patch, then the optional tree. -/
def applyColumnFull (g : Grid) (x gY : Int) (b : Biome) (ov : ColOverlay) : Grid :=
  applyTreeOpt (applyPatchOpt (fillColumnFull g x gY b) x ov.patch) x gY ov.tree

/-- One column iteration of the main.js variant: layer fill, then the
optional stone patch. -/
def applyColumnMain (g : Grid) (x gY : Int) (p : Option Patch) : Grid :=
  applyPatchOpt (fillColumnMain g x gY) x p

/-- The outer column loop of the full variant's `generateWorld`. -/
def buildWorldFull : Grid → Int → List (Int × Biome × ColOverlay) → Grid
  | g, _, [] => g
  | g, x, (gY, b, ov) :: rest => buildWorldFull (applyColumnFull g x gY b ov) (x + 1) rest

/-- The per-column data of the full variant's `generateWorld`: heightmap,
then biome runs, then per-column feature draws, all threading the one
seeded stream in source order. -/
def fullColumns (seed : Nat) : List (Int × Biome × ColOverlay) :=
  let hs := generateHeights seed
  let bs := generateBiomes hs.2
  let ovs := overlaysLoopFull (hs.1.zip bs.1) bs.2
  hs.1.zip (bs.1.zip ovs.1)

/-- Source `generateWorld(seed)` of the full variant, acting on the current
global grid `g0`. -/
def generateWorldFull (seed : Nat) (g0 : Grid) : Grid :=
  buildWorldFull g0 0 (fullColumns seed)

/-- The outer column loop of the main.js variant's `generateWorld`. -/
def buildWorldMain : Grid → Int → List (Int × Option Patch) → Grid
  | g, _, [] => g
  | g, x, (gY, p) :: rest => buildWorldMain (applyColumnMain g x gY p) (x + 1) rest

/-- The per-column data of the main.js variant's `generateWorld`. -/
def mainColumns (seed : Nat) (u : Nat → ℚ) : List (Int × Option Patch) :=
  let hs := generateHeights seed
  let ovs := overlaysLoopMain u hs.1 0 hs.2
  hs.1.zip ovs.1

/-- Source `generateWorld(seed)` of the main.js variant, acting on the
current global grid `g0`; `u` is the ambient unseeded `Math.random` stream
consulted once per column for the stone-patch trigger. -/
def generateWorldMain (seed : Nat) (u : Nat → ℚ) (g0 : Grid) : Grid :=
  buildWorldMain g0 0 (mainColumns seed u)

/- ## Spawning (`spawnPlayerOnSurface`) -/

structure Player where
  x : ℚ
  y : ℚ
deriving DecidableEq

/-- The downward scan of `spawnPlayerOnSurface`: first row `y` from 0 with
`getTile(Math.floor(WORLD_WIDTH / 2), y) === TILE.GRASS`. -/
def spawnScan (g : Grid) : Option Nat :=
  (List.range WORLD_HEIGHT.toNat).find?
    (fun y => getTile g (WORLD_WIDTH / 2) (y : Int) == TILE.GRASS)

/-- Source `spawnPlayerOnSurface()`: place the player at the world-center
column, two tile heights above the first Grass row; leave the player
unchanged when the scan finds no Grass. -/
def spawnPlayerOnSurface (g : Grid) (p : Player) : Player :=
  match spawnScan g with
  | some y => { x := ((WORLD_WIDTH / 2 : Int) : ℚ) * TILE_SIZE,
                y := ((y : ℚ) - 2) * TILE_SIZE }
  | none => p

/- ## Mining / placing interaction (the `update` function's interact block) -/

/-- The inventory map: tile id to count.  A key never written reads as 0,
matching the JS `undefined > 0 = false` and `(inventory[t] || 0)`. -/
abbrev Inventory := Nat → Nat

/-- Context of one place attempt (right click) in the full variant. -/
structure PlaceCtx where
  g : Grid
  inv : Inventory
  playerX : ℚ
  playerY : ℚ
  playerW : ℚ
  playerH : ℚ
  mouseTx : Int
  mouseTy : Int
  placeId : Nat

/-- Pointwise decrement `gameState.inventory[placeId]--`. -/
def decrementInv (inv : Inventory) (id : Nat) : Inventory :=
  fun t => if t = id then inv id - 1 else inv t

/-- The place branch of `update` (full variant, lines 437-462): reach gate
(`Math.hypot(...) <= REACH`, stated as the equivalent comparison of
squares), target must be Air, selected tile must not be Air, a positive
inventory count is required unless placing the infinite Dirt, and the
target tile's footprint must not intersect the player's AABB; on success
the tile is written and the count decremented (unless Dirt).  Every
refusal path returns the state unchanged. -/
def placeAttempt (c : PlaceCtx) : Grid × Inventory :=
  let pxTile := c.playerX / TILE_SIZE
  let pyTile := c.playerY / TILE_SIZE
  if ((c.mouseTx : ℚ) - pxTile) ^ 2 + ((c.mouseTy : ℚ) - pyTile) ^ 2 ≤ REACH ^ 2 then
    if c.placeId ≠ TILE.AIR ∧ getTile c.g c.mouseTx c.mouseTy = TILE.AIR then
      if 0 < c.inv c.placeId ∨ c.placeId = TILE.DIRT then
        let tileWorldX := (c.mouseTx : ℚ) * TILE_SIZE + TILE_SIZE / 2
        let tileWorldY := (c.mouseTy : ℚ) * TILE_SIZE + TILE_SIZE / 2
        if ¬(|tileWorldX - c.playerX| < (TILE_SIZE + c.playerW) / 2 ∧
             |tileWorldY - c.playerY| < (TILE_SIZE + c.playerH) / 2) then
          (setTile c.g c.mouseTx c.mouseTy c.placeId,
           if c.placeId ≠ TILE.DIRT then decrementInv c.inv c.placeId else c.inv)
        else (c.g, c.inv)
      else (c.g, c.inv)
    else (c.g, c.inv)
  else (c.g, c.inv)

/- ## Player health (`updatePlayerHealth`, `damagePlayer`) -/

/-- The player fields handled by the health system.  The respawn branch also
repositions the player via `spawnPlayerOnSurface`; only the health effect is
tracked here.  `totalTime` is advanced by `update` outside this function. -/
structure HState where
  health : ℚ
  maxHealth : ℚ
  invulnerableTime : ℚ
  lastDamageTime : ℚ
  vy : ℚ
  onGround : Bool
  wasOnGround : Bool
  totalTime : ℚ
deriving DecidableEq

/-- Source `damagePlayer(amount)`: a no-op while invulnerable; otherwise
clamp health at the zero floor, start one second of invulnerability and
record the damage time. -/
def damagePlayer (s : HState) (amount : ℚ) : HState :=
  if 0 < s.invulnerableTime then s
  else { s with health := max 0 (s.health - amount),
                invulnerableTime := 1,
                lastDamageTime := s.totalTime }

/-- Per-frame inputs of `updatePlayerHealth` that come from outside the
player record: the frame delta, the weather/daylight flags read from
`gameState`, the two ambient `Math.random()` draws of the lightning branch,
and the grid and player position for the overhead-exposure check. -/
structure HIn where
  dt : ℚ
  isStorm : Bool
  isDaytime : Bool
  roll1 : ℚ
  roll2 : ℚ
  g : Grid
  px : ℚ
  py : ℚ

/-- Invulnerability countdown (`player.invulnerableTime -= dt / 60`). -/
def invulnStep (s : HState) (dt : ℚ) : HState :=
  if 0 < s.invulnerableTime then
    { s with invulnerableTime := s.invulnerableTime - dt / 60 }
  else s

/-- The fall-damage magnitude `Math.max(0, Math.floor((vy - TERMINAL_VELOCITY * 0.7) * 5))`. -/
def fallDamageAmt (vy : ℚ) : ℚ :=
  max 0 ((Int.floor ((vy - TERMINAL_VELOCITY * 0.7) * 5) : Int) : ℚ)

/-- The fall-damage block of `updatePlayerHealth`: fires only when
`vy > TERMINAL_VELOCITY * 0.8` on a step where `onGround` holds but
`wasOnGround` does not, applies `damagePlayer` when the computed amount is
positive, and always records `wasOnGround := onGround` afterwards. -/
def fallDamageStep (s : HState) : HState :=
  let s1 :=
    if TERMINAL_VELOCITY * 0.8 < s.vy ∧ s.onGround = true ∧ s.wasOnGround = false then
      (if 0 < fallDamageAmt s.vy then damagePlayer s (fallDamageAmt s.vy) else s)
    else s
  { s1 with wasOnGround := s1.onGround }

/-- The lightning block: storm, night, an ambient roll under `0.0001 * dt`,
and no solid tile two rows above the player's tile position; the damage is
`10 + Math.floor(Math.random() * 10)`. -/
def lightningStep (s : HState) (i : HIn) : HState :=
  if i.isStorm = true ∧ i.isDaytime = false ∧ i.roll1 < 0.0001 * i.dt ∧
      isSolid (getTile i.g (Int.floor (i.px / TILE_SIZE))
        (Int.floor (i.py / TILE_SIZE - 2))) = false then
    damagePlayer s (10 + ((Int.floor (i.roll2 * 10) : Int) : ℚ))
  else s

/-- The regeneration block: below max health and more than five seconds
since the last damage, heal `0.01 * dt / 60` clamped at max. -/
def regenStep (s : HState) (dt : ℚ) : HState :=
  if s.health < s.maxHealth ∧ 5 < s.totalTime - s.lastDamageTime then
    { s with health := min s.maxHealth (s.health + 0.01 * dt / 60) }
  else s

/-- The death check: at zero or below, reset health to max (the source also
respawns the player's position). -/
def deathStep (s : HState) : HState :=
  if s.health ≤ 0 then { s with health := s.maxHealth } else s

/-- Source `updatePlayerHealth(dt)`: countdown, fall damage, lightning,
regeneration, death check, in source order. -/
def updatePlayerHealth (s : HState) (i : HIn) : HState :=
  deathStep (regenStep (lightningStep (fallDamageStep (invulnStep s i.dt)) i) i.dt)

/- ## Weather (`updateWeather`, `startNewWeather`, `updateWeatherParticles`) -/

inductive WType where
  | clear
  | rain
  | storm
deriving DecidableEq

structure Particle where
  x : ℚ
  y : ℚ
  speed : ℚ
  length : ℚ
deriving DecidableEq

structure Weather where
  wtype : WType
  intensity : ℚ
  timeLeft : ℚ
  particles : List Particle

structure Camera where
  x : ℚ
  y : ℚ
  width : ℚ
  height : ℚ

/-- Source `startNewWeather()`: one draw picks rain (`< 0.7`) or storm,
then intensity and duration each take one more draw; the particle list is
reset. -/
def startNewWeather (w : Weather) (r0 r1 r2 : ℚ) : Weather :=
  if r0 < 0.7 then
    { w with wtype := .rain, intensity := 0.3 + r1 * 0.7,
             timeLeft := 30 + r2 * 120, particles := [] }
  else
    { w with wtype := .storm, intensity := 0.6 + r1 * 0.4,
             timeLeft := 20 + r2 * 60, particles := [] }

/-- The spawn loop of `updateWeatherParticles`: `n` new particles, three
ambient draws each (x position, speed, length), appended in order. -/
def spawnParticles (wt : WType) (cam : Camera) (u : Nat → ℚ) :
    Nat → Nat → List Particle × Nat
  | k, 0 => ([], k)
  | k, n + 1 =>
    let p : Particle :=
      { x := cam.x + u k * cam.width,
        y := cam.y,
        speed := if wt = .rain then 10 + u (k + 1) * 15 else 15 + u (k + 1) * 20,
        length := if wt = .rain then 10 + u (k + 2) * 15 else 5 + u (k + 2) * 10 }
    let rest := spawnParticles wt cam u (k + 3) n
    (p :: rest.1, rest.2)

/-- The update/removal loop of `updateWeatherParticles`.  The source
iterates from the last index downward, moving each particle, splicing it
out when it leaves the visible bottom or strikes a solid tile (with the
rain-on-sand conversion consuming one ambient draw per rain-struck sand
tile, by `&&` short-circuit), and keeping the rest in order; that is the
right-to-left pass below. -/
def particlesPass (cam : Camera) (wt : WType) (dt : ℚ) (u : Nat → ℚ) :
    List Particle → Nat → Grid → List Particle × Grid × Nat
  | [], k, g => ([], g, k)
  | p :: rest, k, g =>
    let r := particlesPass cam wt dt u rest k g
    let p1 : Particle := { p with y := p.y + p.speed * dt / 5 }
    if cam.y + cam.height < p1.y then (r.1, r.2.1, r.2.2)
    else
      let tx := Int.floor (p1.x / TILE_SIZE)
      let ty := Int.floor (p1.y / TILE_SIZE)
      if isSolid (getTile r.2.1 tx ty) = true then
        if wt = .rain ∧ getTile r.2.1 tx ty = TILE.SAND then
          if u r.2.2 < 0.001 then (r.1, setTile r.2.1 tx ty TILE.DIRT, r.2.2 + 1)
          else (r.1, r.2.1, r.2.2 + 1)
        else (r.1, r.2.1, r.2.2)
      else (p1 :: r.1, r.2.1, r.2.2)

/-- Source `updateWeatherParticles(dt)`: no-op when clear; otherwise spawn
`Math.floor(intensity * 3 * dt)` (rain) or `* 5 * dt` (storm) new
particles, then run the update/removal pass over old and new particles. -/
def updateWeatherParticles (w : Weather) (g : Grid) (cam : Camera) (dt : ℚ)
    (u : Nat → ℚ) (k : Nat) : Weather × Grid × Nat :=
  if w.wtype = .clear then (w, g, k)
  else
    let n := if w.wtype = .rain then (Int.floor (w.intensity * 3 * dt)).toNat
             else (Int.floor (w.intensity * 5 * dt)).toNat
    let sp := spawnParticles w.wtype cam u k n
    let upd := particlesPass cam w.wtype dt u (w.particles ++ sp.1) sp.2 g
    ({ w with particles := upd.1 }, upd.2.1, upd.2.2)

/-- Source `updateWeather(dt)`: while a weather is active, count the timer
down by `dt / 60` and clear the weather (type clear, zero intensity, empty
particles) the step it reaches zero or below; otherwise an ambient roll
under `0.001 * dt` starts a new weather; finally the particle update runs.
`trigger`, `r0`, `r1`, `r2` are the ambient draws of this step and `u` the
ambient stream of the particle pass. -/
def updateWeather (w : Weather) (g : Grid) (cam : Camera) (dt : ℚ)
    (trigger r0 r1 r2 : ℚ) (u : Nat → ℚ) : Weather × Grid :=
  let w1 :=
    if 0 < w.timeLeft then
      let tl := w.timeLeft - dt / 60
      if tl ≤ 0 then
        { w with timeLeft := tl, wtype := .clear, intensity := 0, particles := [] }
      else { w with timeLeft := tl }
    else if trigger < 0.001 * dt then startNewWeather w r0 r1 r2
    else w
  let r := updateWeatherParticles w1 g cam dt u 0
  (r.1, r.2.1)

/- ## Test fixtures used by concrete witnesses and counterexamples -/

/-- All-air raw grid. -/
def airGrid : Grid := fun _ _ => TILE.AIR

/-- Flat raw grid: solid Stone at every row at or below 10. -/
def flatGrid : Grid := fun _ Y => if 10 ≤ Y then TILE.STONE else TILE.AIR

/-- Place-attempt context with the empty hotbar slot (Air) selected. -/
def placeCtxAirSel : PlaceCtx :=
  { g := airGrid, inv := fun _ => 0, playerX := 2400, playerY := 1512,
    playerW := 18, playerH := 34, mouseTx := 100, mouseTy := 64, placeId := TILE.AIR }

/-- Fresh player health state. -/
def hState0 : HState :=
  { health := 100, maxHealth := 100, invulnerableTime := 0, lastDamageTime := 0,
    vy := 0, onGround := false, wasOnGround := false, totalTime := 0 }

/-- A stormy-night frame input. -/
def hIn0 : HIn :=
  { dt := 1, isStorm := true, isDaytime := false, roll1 := 0, roll2 := 1/2,
    g := airGrid, px := 2400, py := 1512 }

/-- Landing step at `vy = 14`: between 70% and 80% of terminal velocity. -/
def c7CounterState : HState :=
  { health := 100, maxHealth := 100, invulnerableTime := 0, lastDamageTime := 0,
    vy := 14, onGround := true, wasOnGround := false, totalTime := 10 }

/-- Landing step at `vy = 17`, past the 80% gate. -/
def c7WitnessState : HState :=
  { health := 100, maxHealth := 100, invulnerableTime := 0, lastDamageTime := 0,
    vy := 17, onGround := true, wasOnGround := false, totalTime := 10 }

/-- An active rain about to expire. -/
def c8Rain : Weather :=
  { wtype := .rain, intensity := 1/2, timeLeft := 1/10, particles := [] }

def c8Cam : Camera := { x := 0, y := 0, width := 100, height := 100 }

/- # Theorems -/

/- ## Generic helper lemmas -/

lemma mem_scanRange {a b i : Int} : i ∈ scanRange a b ↔ a ≤ i ∧ i ≤ b := by
  constructor
  · intro h
    rw [scanRange, List.mem_map] at h
    obtain ⟨j, hj, rfl⟩ := h
    rw [List.mem_range] at hj
    omega
  · rintro ⟨h1, h2⟩
    rw [scanRange, List.mem_map]
    refine ⟨(i - a).toNat, ?_, by omega⟩
    rw [List.mem_range]
    omega

lemma vSweepLoop_succ (g : Grid) (newX py pw ph ady dirq stepAbs : ℚ)
    (fuel : Nat) (moved newY : ℚ) :
    vSweepLoop g newX py pw ph ady dirq stepAbs (fuel + 1) moved newY =
    (if moved < ady then
      let nextY := py + min ady (moved + stepAbs) * dirq
      let left := tileFloor (newX - pw / 2)
      let right := tileFloor (newX + pw / 2)
      let top := tileFloor (nextY - ph / 2)
      let bottom := tileFloor (nextY + ph / 2 - 1)
      if (scanRange left right).any
          (fun tx => isSolid (getTile g tx (if 0 < dirq then bottom else top))) then
        if 0 < dirq then
          .hit { x := newX, y := (bottom : ℚ) * TILE_SIZE - ph / 2,
                 grounded := true, hitX := false, hitY := true }
        else
          .hit { x := newX, y := ((top + 1 : Int) : ℚ) * TILE_SIZE + ph / 2,
                 grounded := false, hitX := false, hitY := true }
      else vSweepLoop g newX py pw ph ady dirq stepAbs fuel (moved + stepAbs) nextY
    else .pass newY) := rfl

/-- Every early return of the horizontal sweep keeps `y = py`. -/
lemma hSweepLoop_hit_y (g : Grid) (px py pw ph adx dirq stepAbs : ℚ) :
    ∀ (fuel : Nat) (moved newX : ℚ) (out : CollideOut),
      hSweepLoop g px py pw ph adx dirq stepAbs fuel moved newX = .hit out → out.y = py := by
  intro fuel
  induction fuel with
  | zero =>
    intro moved newX out h
    exact SweepRes.noConfusion h
  | succ n ih =>
    intro moved newX out h
    by_cases hd : 0 < dirq
    · simp only [hSweepLoop, if_pos hd] at h
      split at h
      · split at h
        · cases h
          rfl
        · exact ih _ _ _ h
      · exact SweepRes.noConfusion h
    · simp only [hSweepLoop, if_neg hd] at h
      split at h
      · split at h
        · cases h
          rfl
        · exact ih _ _ _ h
      · exact SweepRes.noConfusion h

/-- Every early return of the vertical sweep keeps `x = newX`. -/
lemma vSweepLoop_hit_x (g : Grid) (newX py pw ph ady dirq stepAbs : ℚ) :
    ∀ (fuel : Nat) (moved newY : ℚ) (out : CollideOut),
      vSweepLoop g newX py pw ph ady dirq stepAbs fuel moved newY = .hit out → out.x = newX := by
  intro fuel
  induction fuel with
  | zero =>
    intro moved newY out h
    exact SweepRes.noConfusion h
  | succ n ih =>
    intro moved newY out h
    by_cases hd : 0 < dirq
    · simp only [vSweepLoop, if_pos hd] at h
      split at h
      · split at h
        · cases h
          rfl
        · exact ih _ _ _ h
      · exact SweepRes.noConfusion h
    · simp only [vSweepLoop, if_neg hd] at h
      split at h
      · split at h
        · cases h
          rfl
        · exact ih _ _ _ h
      · exact SweepRes.noConfusion h

/-- With a zero horizontal delta `aabbVsTiles` is exactly the vertical sweep
from the unchanged horizontal position. -/
lemma aabbVsTiles_dx0 (g : Grid) (px py pw ph dy : ℚ) :
    aabbVsTiles g px py pw ph 0 dy =
    (match (if dy ≠ 0 then
        vSweepLoop g px py pw ph |dy| (jsSign dy) (min |dy| TILE_SIZE)
          (sweepFuel |dy| (min |dy| TILE_SIZE)) 0 (py + dy)
      else .pass (py + dy)) with
     | .hit out => out
     | .pass newY => { x := px, y := newY, grounded := false, hitX := false, hitY := false }) := by
  rw [aabbVsTiles]
  norm_num

/-- The fuel computed for a sweep dominates the loop's iteration count. -/
lemma sweepFuel_adequate (d s : ℚ) (hd : 0 < d) (hs : 0 < s) :
    d ≤ 0 + (sweepFuel d s : ℚ) * s := by
  have h1 : (0:ℚ) < d / s := div_pos hd hs
  have h2 : (0:ℤ) ≤ ⌈d / s⌉ := le_of_lt (Int.ceil_pos.mpr h1)
  have h4 : d / s ≤ (⌈d / s⌉ : ℚ) := Int.le_ceil _
  have h5 : d ≤ (⌈d / s⌉ : ℚ) * s := by
    rw [div_le_iff₀ hs] at h4
    linarith
  have h6 : ((⌈d / s⌉.toNat : ℤ) : ℚ) = ((⌈d / s⌉ : ℤ) : ℚ) := by
    exact_mod_cast congrArg (fun z => ((z : ℤ) : ℚ)) (Int.toNat_of_nonneg h2)
  rw [sweepFuel]
  push_cast
  push_cast at h6
  nlinarith [h6]

/-- Key lemma for the downward snap (claim C3).  With the vertical sweep
moving down (`dirq = 1`) through air rows over a row `r` that is solid under
the scanned columns, every loop iteration either advances through air or
snaps exactly on top of row `r`; the loop cannot exit before snapping when
the requested delta reaches at least one unit past the remaining gap. -/
lemma vLoop_snap (g : Grid) (X py pw ph dy : ℚ) (r : Int)
    (hsolid : ∃ tx, tileFloor (X - pw / 2) ≤ tx ∧ tx ≤ tileFloor (X + pw / 2) ∧
      isSolid (getTile g tx r) = true)
    (hair : ∀ tx, tileFloor (X - pw / 2) ≤ tx → tx ≤ tileFloor (X + pw / 2) →
      ∀ q : Int, tileFloor (py + ph / 2 - 1) ≤ q → q < r → isSolid (getTile g tx q) = false)
    (hrest : py + ph / 2 ≤ (r : ℚ) * TILE_SIZE)
    (hdy : (r : ℚ) * TILE_SIZE - ph / 2 - py + 1 ≤ dy) :
    ∀ (fuel : Nat) (moved newY : ℚ),
      0 ≤ moved → moved < dy →
      dy ≤ moved + (fuel : ℚ) * min dy TILE_SIZE →
      py + min dy moved + ph / 2 - 1 < (r : ℚ) * TILE_SIZE →
      vSweepLoop g X py pw ph dy 1 (min dy TILE_SIZE) fuel moved newY =
        .hit { x := X, y := (r : ℚ) * TILE_SIZE - ph / 2,
               grounded := true, hitX := false, hitY := true } := by
  have hts : (0:ℚ) < TILE_SIZE := by norm_num [TILE_SIZE]
  have hdy1 : (1:ℚ) ≤ dy := by linarith
  have hs_pos : 0 < min dy TILE_SIZE := lt_min (by linarith) hts
  have hs_le : min dy TILE_SIZE ≤ TILE_SIZE := min_le_right _ _
  set s : ℚ := min dy TILE_SIZE with hs_def
  intro fuel
  induction fuel with
  | zero =>
    intro moved newY h0 h1 hfuel _
    exfalso
    push_cast at hfuel
    linarith
  | succ n ih =>
    intro moved newY h0 h1 hfuel hprev
    rw [vSweepLoop_succ, if_pos h1]
    simp only [mul_one, if_pos (show (0:ℚ) < 1 by norm_num)]
    have hN0 : 0 ≤ min dy (moved + s) := le_min (by linarith) (by linarith)
    have hNle : min dy (moved + s) ≤ min dy moved + s := by
      rcases le_total dy moved with h | h
      · have := min_le_left dy (moved + s)
        rw [min_eq_left h]
        linarith
      · have := min_le_right dy (moved + s)
        rw [min_eq_right h]
        linarith
    have hv_lt : py + min dy (moved + s) + ph / 2 - 1 < ((r + 1 : Int) : ℚ) * TILE_SIZE := by
      push_cast
      have : TILE_SIZE = 24 := by norm_num [TILE_SIZE]
      nlinarith
    have hbot_le : tileFloor (py + min dy (moved + s) + ph / 2 - 1) ≤ r := by
      have : (py + min dy (moved + s) + ph / 2 - 1) / TILE_SIZE < ((r + 1 : Int) : ℚ) := by
        rw [div_lt_iff₀ hts]
        push_cast
        push_cast at hv_lt
        linarith
      have := Int.floor_lt.mpr this
      rw [tileFloor]
      omega
    have hbot_ge : tileFloor (py + ph / 2 - 1) ≤ tileFloor (py + min dy (moved + s) + ph / 2 - 1) := by
      apply Int.floor_le_floor
      have h7 : (0:ℚ) ≤ min dy (moved + s) := hN0
      gcongr
      linarith
    by_cases hvlt : py + min dy (moved + s) + ph / 2 - 1 < (r : ℚ) * TILE_SIZE
    · -- the bottom row this iteration is still above row r: all scanned tiles are air
      have hbot_lt : tileFloor (py + min dy (moved + s) + ph / 2 - 1) < r := by
        have : (py + min dy (moved + s) + ph / 2 - 1) / TILE_SIZE < ((r : Int) : ℚ) := by
          rw [div_lt_iff₀ hts]
          linarith
        exact Int.floor_lt.mpr this
      have hany : ((scanRange (tileFloor (X - pw / 2)) (tileFloor (X + pw / 2))).any
          (fun tx => isSolid (getTile g tx (tileFloor (py + min dy (moved + s) + ph / 2 - 1))))) = false := by
        rw [List.any_eq_false]
        intro tx htx
        rw [mem_scanRange] at htx
        rw [hair tx htx.1 htx.2 _ hbot_ge hbot_lt]
        simp
      rw [if_neg (by simp [hany])]
      apply ih
      · linarith
      · -- the loop cannot exhaust the distance while still above row r
        by_contra hcon
        push_neg at hcon
        have heq : min dy (moved + s) = dy := min_eq_left (by linarith)
        rw [heq] at hvlt
        linarith
      · push_cast at hfuel ⊢
        linarith
      · exact hvlt
    · -- the bottom row this iteration reaches row r: snap on top of it
      push_neg at hvlt
      have hbot_eq : tileFloor (py + min dy (moved + s) + ph / 2 - 1) = r := by
        have hge : (r : Int) ≤ tileFloor (py + min dy (moved + s) + ph / 2 - 1) := by
          rw [tileFloor]
          apply Int.le_floor.mpr
          rw [le_div_iff₀ hts]
          linarith
        omega
      have hany : ((scanRange (tileFloor (X - pw / 2)) (tileFloor (X + pw / 2))).any
          (fun tx => isSolid (getTile g tx (tileFloor (py + min dy (moved + s) + ph / 2 - 1))))) = true := by
        rw [List.any_eq_true]
        obtain ⟨tx, h1x, h2x, hsol⟩ := hsolid
        refine ⟨tx, mem_scanRange.mpr ⟨h1x, h2x⟩, ?_⟩
        rw [hbot_eq, hsol]
      rw [if_pos (by simp [hany])]
      rw [hbot_eq]

/- ## Claim C2 -/

/-- C2: for every coordinate outside the grid bounds, `getTile` returns the
solid sentinel Stone and `setTile` leaves the grid completely unchanged. -/
theorem C2_out_of_bounds_contract (g : Grid) (x y : Int) (t : Nat)
    (h : ¬ inBounds x y) :
    getTile g x y = TILE.STONE ∧ setTile g x y t = g := by
  constructor
  · rw [getTile, if_neg h]
  · rw [setTile, if_neg h]

/-- Witness for C2 at the concrete out-of-bounds coordinate (-1, 0). -/
theorem C2_out_of_bounds_contract_witness :
    getTile airGrid (-1) 0 = TILE.STONE ∧ setTile airGrid (-1) 0 TILE.DIRT = airGrid :=
  C2_out_of_bounds_contract airGrid (-1) 0 TILE.DIRT (by decide)

/- ## Claim C3 -/

/-- C3 (counterexample to the claim as stated): on the flat world, an actor
of half-height 17 at `py = 200` rests against the solid row 10 at
`y = 10 * 24 - 17 = 223`, so the remaining gap is 23; the requested
downward delta `47/2 = 23.5 ≥ 23` meets the claim's premise, yet the
resolver neither snaps (`y = 223.5`, not the tile-top 223) nor reports
grounded. -/
theorem C3_claim_counterexample :
    ((10:ℚ) * TILE_SIZE - 34 / 2 - 200 ≤ 47 / 2) ∧
    isSolid (getTile flatGrid 100 10) = true ∧
    aabbVsTiles flatGrid 2412 200 18 34 0 (47 / 2) =
      { x := 2412, y := 447 / 2, grounded := false, hitX := false, hitY := false } := by
  refine ⟨by norm_num [TILE_SIZE], by decide, ?_⟩
  have e4 : |(47:ℚ) / 2| = 47 / 2 := by norm_num
  have e1 : jsSign ((47:ℚ) / 2) = 1 := by norm_num [jsSign]
  have e2 : min ((47:ℚ) / 2) TILE_SIZE = 47 / 2 := by norm_num [min_def, TILE_SIZE]
  have e3 : sweepFuel ((47:ℚ) / 2) (47 / 2) = 2 := by norm_num [sweepFuel]
  rw [aabbVsTiles]
  norm_num [e4, e1, e2, e3]
  rw [show (2:Nat) = 1 + 1 from rfl, vSweepLoop_succ]
  rw [if_pos (by norm_num : (0:ℚ) < 47 / 2)]
  have el : tileFloor ((2412:ℚ) + 0 - 18 / 2) = 100 := by norm_num [tileFloor, TILE_SIZE]
  have er : tileFloor ((2412:ℚ) + 0 + 18 / 2) = 100 := by norm_num [tileFloor, TILE_SIZE]
  norm_num [min_def, tileFloor, TILE_SIZE, scanRange, getTile, flatGrid, inBounds, isSolid,
    WORLD_WIDTH, WORLD_HEIGHT, TILE.STONE, TILE.AIR]
  rw [show (1:Nat) = 0 + 1 from rfl, vSweepLoop_succ]
  rw [if_neg (by norm_num)]

/-- C3 (amended): the downward sweep computes the contact row from
`py + ph/2 - 1`, one length unit short of the true bottom edge, so the
stable snap holds for every requested downward delta at least
`gap + 1` — one unit past the remaining gap — rather than for every delta
`≥ gap`: from any start at or above rest over a solid row `r` (air in the
scanned columns strictly above `r`), the resolver returns exactly
`y = r * TILE_SIZE - ph/2` with grounded true, independent of the
overshoot magnitude. -/
theorem C3_downward_snap_amended (g : Grid) (px py pw ph dy : ℚ) (r : Int)
    (hsolid : ∃ tx, tileFloor (px - pw / 2) ≤ tx ∧ tx ≤ tileFloor (px + pw / 2) ∧
      isSolid (getTile g tx r) = true)
    (hair : ∀ tx, tileFloor (px - pw / 2) ≤ tx → tx ≤ tileFloor (px + pw / 2) →
      ∀ q : Int, tileFloor (py + ph / 2 - 1) ≤ q → q < r → isSolid (getTile g tx q) = false)
    (hrest : py + ph / 2 ≤ (r : ℚ) * TILE_SIZE)
    (hdy : (r : ℚ) * TILE_SIZE - ph / 2 - py + 1 ≤ dy) :
    aabbVsTiles g px py pw ph 0 dy =
      { x := px, y := (r : ℚ) * TILE_SIZE - ph / 2,
        grounded := true, hitX := false, hitY := true } := by
  have hdyp : (0:ℚ) < dy := by linarith
  have habs : |dy| = dy := abs_of_pos hdyp
  have hsgn : jsSign dy = 1 := by rw [jsSign, if_pos hdyp]
  have hts : (0:ℚ) < TILE_SIZE := by norm_num [TILE_SIZE]
  have hsp : 0 < min dy TILE_SIZE := lt_min hdyp hts
  rw [aabbVsTiles_dx0, if_pos (ne_of_gt hdyp), habs, hsgn]
  rw [vLoop_snap g px py pw ph dy r hsolid hair hrest hdy
    (sweepFuel dy (min dy TILE_SIZE)) 0 (py + dy) le_rfl hdyp
    (sweepFuel_adequate dy (min dy TILE_SIZE) hdyp hsp)
    (by rw [min_eq_right hdyp.le]; linarith)]

/-- Witness for the amended C3 on the flat world: starting well above the
solid row 10 with an overshooting delta of 200, the resolver snaps to
`y = 223` and reports grounded. -/
theorem C3_downward_snap_amended_witness :
    aabbVsTiles flatGrid 2412 100 18 34 0 200 =
      { x := 2412, y := (10:ℚ) * TILE_SIZE - 34 / 2,
        grounded := true, hitX := false, hitY := true } := by
  have el : tileFloor ((2412:ℚ) - 18 / 2) = 100 := by norm_num [tileFloor, TILE_SIZE]
  have er : tileFloor ((2412:ℚ) + 18 / 2) = 100 := by norm_num [tileFloor, TILE_SIZE]
  have eb : tileFloor ((100:ℚ) + 34 / 2 - 1) = 4 := by norm_num [tileFloor, TILE_SIZE]
  apply C3_downward_snap_amended flatGrid 2412 100 18 34 200 10
  · exact ⟨100, by rw [el], by rw [er], by decide⟩
  · intro tx h1 h2 q h3 h4
    rw [el] at h1
    rw [er] at h2
    rw [eb] at h3
    have htx : tx = 100 := le_antisymm h2 h1
    subst htx
    rw [getTile, if_pos (by simp only [inBounds, WORLD_WIDTH, WORLD_HEIGHT]; omega)]
    rw [flatGrid]
    rw [if_neg (by omega)]
    decide
  · norm_num [TILE_SIZE]
  · norm_num [TILE_SIZE]

/- ## Claim C4 -/

/-- C4 (counterexample to the claim as stated): an actor of half-height 17
resting exactly on top of the solid row 10 of the flat world
(`223 + 17 = 10 * 24`), given zero horizontal velocity and zero vertical
delta, keeps its position — but grounded comes back false, not true: with
no displacement no contact is detected, and grounded is only ever set by an
actual downward collision. -/
theorem C4_claim_counterexample :
    (223:ℚ) + 34 / 2 = 10 * TILE_SIZE ∧
    isSolid (getTile flatGrid 100 10) = true ∧
    aabbVsTiles flatGrid 2412 223 18 34 0 0 =
      { x := 2412, y := 223, grounded := false, hitX := false, hitY := false } := by
  refine ⟨by norm_num [TILE_SIZE], by decide, by simp [aabbVsTiles]⟩

/-- C4 (amended): a resolve call with zero requested displacement on both
axes returns the input position unchanged and grounded = false (grounded is
only set by a downward contact during an actual vertical sweep, which a
zero-delta call never runs), for every grid and every actor box. -/
theorem C4_zero_delta_amended (g : Grid) (px py pw ph : ℚ) :
    aabbVsTiles g px py pw ph 0 0 =
      { x := px, y := py, grounded := false, hitX := false, hitY := false } := by
  simp [aabbVsTiles]

/- ## Claim C10 -/

/-- C10: the two axis sweeps never perturb each other's coordinate: a call
with zero vertical delta returns `y` equal to the input `py`, and a call
with zero horizontal delta returns `x` equal to the input `px`, whatever
the grid, position, half-extents and the other axis's delta. -/
theorem C10_axis_noninterference (g : Grid) (px py pw ph dx dy : ℚ) :
    (dy = 0 → (aabbVsTiles g px py pw ph dx dy).y = py) ∧
    (dx = 0 → (aabbVsTiles g px py pw ph dx dy).x = px) := by
  constructor
  · intro hdy
    subst hdy
    rw [aabbVsTiles]
    by_cases hdx : dx ≠ 0
    · rw [if_pos hdx]
      generalize hres : hSweepLoop g px py pw ph |dx| (jsSign dx) (min |dx| TILE_SIZE)
          (sweepFuel |dx| (min |dx| TILE_SIZE)) 0 (px + dx) = hv
      cases hv with
      | hit out =>
        simpa using hSweepLoop_hit_y g px py pw ph |dx| (jsSign dx) (min |dx| TILE_SIZE)
          _ _ _ _ hres
      | pass newX => simp
    · rw [if_neg hdx]
      simp
  · intro hdx
    subst hdx
    rw [aabbVsTiles_dx0]
    by_cases hdy : dy ≠ 0
    · rw [if_pos hdy]
      generalize hres : vSweepLoop g px py pw ph |dy| (jsSign dy) (min |dy| TILE_SIZE)
          (sweepFuel |dy| (min |dy| TILE_SIZE)) 0 (py + dy) = vv
      cases vv with
      | hit out =>
        simpa using vSweepLoop_hit_x g px py pw ph |dy| (jsSign dy) (min |dy| TILE_SIZE)
          _ _ _ _ hres
      | pass newY => simp
    · rw [if_neg hdy]

/-- Witness for C10 at a concrete input: a pure horizontal request on the
flat world keeps `y`, and a pure vertical request keeps `x`. -/
theorem C10_axis_noninterference_witness :
    (aabbVsTiles flatGrid 2412 200 18 34 5 0).y = 200 ∧
    (aabbVsTiles flatGrid 2412 200 18 34 0 7).x = 2412 :=
  ⟨(C10_axis_noninterference flatGrid 2412 200 18 34 5 0).1 rfl,
   (C10_axis_noninterference flatGrid 2412 200 18 34 0 7).2 rfl⟩

/- ## Claim C5 -/

/-- C5: whenever the place target is not Air, or the selected hotbar tile
is Air, or the selected tile's count is zero and it is not the exempt
infinite Dirt, or the target tile's footprint overlaps the actor's AABB,
the attempt is refused with both the grid and the inventory unchanged. -/
theorem C5_place_refusal (c : PlaceCtx)
    (h : getTile c.g c.mouseTx c.mouseTy ≠ TILE.AIR ∨ c.placeId = TILE.AIR ∨
      (c.inv c.placeId = 0 ∧ c.placeId ≠ TILE.DIRT) ∨
      (|(c.mouseTx : ℚ) * TILE_SIZE + TILE_SIZE / 2 - c.playerX| < (TILE_SIZE + c.playerW) / 2 ∧
       |(c.mouseTy : ℚ) * TILE_SIZE + TILE_SIZE / 2 - c.playerY| < (TILE_SIZE + c.playerH) / 2)) :
    placeAttempt c = (c.g, c.inv) := by
  simp only [placeAttempt]
  by_cases h1 : ((c.mouseTx : ℚ) - c.playerX / TILE_SIZE) ^ 2 +
      ((c.mouseTy : ℚ) - c.playerY / TILE_SIZE) ^ 2 ≤ REACH ^ 2
  · rw [if_pos h1]
    rcases h with hA | hA | hA | hA
    · rw [if_neg (fun hc => hA hc.2)]
    · rw [if_neg (fun hc => hc.1 hA)]
    · by_cases h2 : c.placeId ≠ TILE.AIR ∧ getTile c.g c.mouseTx c.mouseTy = TILE.AIR
      · rw [if_pos h2, if_neg ?_]
        rintro (hpos | hdirt)
        · omega
        · exact hA.2 hdirt
      · rw [if_neg h2]
    · by_cases h2 : c.placeId ≠ TILE.AIR ∧ getTile c.g c.mouseTx c.mouseTy = TILE.AIR
      · rw [if_pos h2]
        by_cases h3 : 0 < c.inv c.placeId ∨ c.placeId = TILE.DIRT
        · rw [if_pos h3, if_neg (not_not_intro hA)]
        · rw [if_neg h3]
      · rw [if_neg h2]
  · rw [if_neg h1]

/-- Witness for C5: selecting the empty hotbar slot leaves grid and
inventory untouched. -/
theorem C5_place_refusal_witness :
    placeAttempt placeCtxAirSel = (placeCtxAirSel.g, placeCtxAirSel.inv) :=
  C5_place_refusal placeCtxAirSel (Or.inr (Or.inl rfl))

/- ## Claim C6 -/

lemma damagePlayer_bounds (s : HState) (a : ℚ) (ha : 0 ≤ a)
    (h0 : 0 ≤ s.health) (h1 : s.health ≤ s.maxHealth) :
    0 ≤ (damagePlayer s a).health ∧ (damagePlayer s a).health ≤ s.maxHealth ∧
    (damagePlayer s a).maxHealth = s.maxHealth := by
  rw [damagePlayer]
  split_ifs
  · exact ⟨h0, h1, rfl⟩
  · refine ⟨le_max_left _ _, max_le (by linarith) (by linarith), rfl⟩

lemma invulnStep_fields (s : HState) (dt : ℚ) :
    (invulnStep s dt).health = s.health ∧ (invulnStep s dt).maxHealth = s.maxHealth ∧
    (invulnStep s dt).vy = s.vy ∧ (invulnStep s dt).onGround = s.onGround ∧
    (invulnStep s dt).wasOnGround = s.wasOnGround := by
  rw [invulnStep]
  split_ifs <;> exact ⟨rfl, rfl, rfl, rfl, rfl⟩

lemma fallDamageStep_bounds (s : HState)
    (h0 : 0 ≤ s.health) (h1 : s.health ≤ s.maxHealth) :
    0 ≤ (fallDamageStep s).health ∧ (fallDamageStep s).health ≤ s.maxHealth ∧
    (fallDamageStep s).maxHealth = s.maxHealth := by
  rw [fallDamageStep]
  split_ifs with hc hf
  · exact damagePlayer_bounds s _ (le_max_left _ _) h0 h1
  · exact ⟨h0, h1, rfl⟩
  · exact ⟨h0, h1, rfl⟩

lemma lightningStep_bounds (s : HState) (i : HIn) (hr : 0 ≤ i.roll2)
    (h0 : 0 ≤ s.health) (h1 : s.health ≤ s.maxHealth) :
    0 ≤ (lightningStep s i).health ∧ (lightningStep s i).health ≤ s.maxHealth ∧
    (lightningStep s i).maxHealth = s.maxHealth := by
  rw [lightningStep]
  split_ifs
  · refine damagePlayer_bounds s _ ?_ h0 h1
    have : (0:ℚ) ≤ ((Int.floor (i.roll2 * 10) : Int) : ℚ) := by
      have : (0:Int) ≤ Int.floor (i.roll2 * 10) := by
        apply Int.floor_nonneg.mpr
        positivity
      exact_mod_cast this
    linarith
  · exact ⟨h0, h1, rfl⟩

lemma regenStep_bounds (s : HState) (dt : ℚ) (hdt : 0 ≤ dt)
    (h0 : 0 ≤ s.health) (h1 : s.health ≤ s.maxHealth) :
    0 ≤ (regenStep s dt).health ∧ (regenStep s dt).health ≤ s.maxHealth ∧
    (regenStep s dt).maxHealth = s.maxHealth := by
  rw [regenStep]
  split_ifs
  · refine ⟨le_min (by linarith) (by positivity), min_le_left _ _, rfl⟩
  · exact ⟨h0, h1, rfl⟩

lemma deathStep_bounds (s : HState)
    (h0 : 0 ≤ s.health) (h1 : s.health ≤ s.maxHealth) :
    0 ≤ (deathStep s).health ∧ (deathStep s).health ≤ s.maxHealth ∧
    (deathStep s).maxHealth = s.maxHealth := by
  rw [deathStep]
  split_ifs
  · exact ⟨by linarith, le_refl _, rfl⟩
  · exact ⟨h0, h1, rfl⟩

/-- One frame of the health system keeps `0 ≤ health ≤ maxHealth` and never
changes `maxHealth`. -/
lemma updatePlayerHealth_bounds (s : HState) (i : HIn)
    (hdt : 0 ≤ i.dt) (hr : 0 ≤ i.roll2)
    (h0 : 0 ≤ s.health) (h1 : s.health ≤ s.maxHealth) :
    0 ≤ (updatePlayerHealth s i).health ∧
    (updatePlayerHealth s i).health ≤ (updatePlayerHealth s i).maxHealth := by
  rw [updatePlayerHealth]
  have e1 := invulnStep_fields s i.dt
  have b2 := fallDamageStep_bounds (invulnStep s i.dt) (by rw [e1.1]; exact h0)
    (by rw [e1.1, e1.2.1]; exact h1)
  have b3 := lightningStep_bounds (fallDamageStep (invulnStep s i.dt)) i hr b2.1
    (by rw [b2.2.2]; exact b2.2.1)
  have b4 := regenStep_bounds (lightningStep (fallDamageStep (invulnStep s i.dt)) i) i.dt hdt
    b3.1 (by rw [b3.2.2]; exact b3.2.1)
  have b5 := deathStep_bounds (regenStep (lightningStep (fallDamageStep (invulnStep s i.dt)) i) i.dt)
    b4.1 (by rw [b4.2.2]; exact b4.2.1)
  exact ⟨b5.1, by rw [b5.2.2]; exact b5.2.1⟩

/-- C6: after every sequence of health-system frames (each containing the
damage, regeneration and respawn operations of the source, with nonnegative
frame deltas and ambient rolls), the actor's health stays within
`[0, maxHealth]`. -/
theorem C6_health_bounds (s0 : HState) (l : List HIn)
    (hl : ∀ i ∈ l, 0 ≤ i.dt ∧ 0 ≤ i.roll2)
    (h0 : 0 ≤ s0.health) (h1 : s0.health ≤ s0.maxHealth) :
    0 ≤ (l.foldl updatePlayerHealth s0).health ∧
    (l.foldl updatePlayerHealth s0).health ≤ (l.foldl updatePlayerHealth s0).maxHealth := by
  induction l generalizing s0 with
  | nil => exact ⟨h0, h1⟩
  | cons i t ih =>
    simp only [List.foldl_cons]
    have hi := hl i (List.mem_cons_self i t)
    have hstep := updatePlayerHealth_bounds s0 i hi.1 hi.2 h0 h1
    exact ih _ (fun j hj => hl j (List.mem_cons_of_mem i hj)) hstep.1 hstep.2

/-- Witness for C6: two stormy-night frames from full health keep health
within bounds. -/
theorem C6_health_bounds_witness :
    0 ≤ ([hIn0, hIn0].foldl updatePlayerHealth hState0).health ∧
    ([hIn0, hIn0].foldl updatePlayerHealth hState0).health ≤
      ([hIn0, hIn0].foldl updatePlayerHealth hState0).maxHealth :=
  C6_health_bounds hState0 [hIn0, hIn0]
    (by
      intro i hi
      simp only [List.mem_cons, List.not_mem_nil, or_false] at hi
      rcases hi with rfl | rfl <;> exact ⟨by norm_num [hIn0], by norm_num [hIn0]⟩)
    (by norm_num [hState0]) (by norm_num [hState0])

/- ## Claim C7 -/

/-- C7 (counterexample to the claim as stated): on a landing step
(`onGround` with `wasOnGround` false) with pre-impact speed `vy = 14`, the
fall speed exceeds 70% of terminal velocity (12.6) — so the claim's
proportional damage is positive — yet the code applies no damage at all,
because its trigger additionally requires `vy > 0.8 * TERMINAL_VELOCITY = 14.4`. -/
theorem C7_claim_counterexample :
    c7CounterState.onGround = true ∧ c7CounterState.wasOnGround = false ∧
    TERMINAL_VELOCITY * 0.7 < c7CounterState.vy ∧
    c7CounterState.invulnerableTime ≤ 0 ∧
    0 < fallDamageAmt c7CounterState.vy ∧
    (fallDamageStep c7CounterState).health = c7CounterState.health := by
  refine ⟨rfl, rfl, by norm_num [TERMINAL_VELOCITY, c7CounterState], by norm_num [c7CounterState],
    ?_, ?_⟩
  · rw [fallDamageAmt]
    norm_num [TERMINAL_VELOCITY, c7CounterState]
  · rw [fallDamageStep]
    rw [if_neg (by norm_num [TERMINAL_VELOCITY, c7CounterState])]

/-- C7 (amended): fall damage is applied only on the step where the actor
transitions from falling to grounded, and only when the pre-impact fall
speed also exceeds 80% of terminal velocity (the trigger gate, stricter
than the 70% base of the magnitude formula) and invulnerability is not
active; its magnitude is `max 0 ⌊(vy - 0.7 * terminal) * 5⌋`, clamped at
the zero health floor; on every other step the block leaves health
unchanged. -/
theorem C7_fall_damage_amended (s : HState) :
    (¬(s.onGround = true ∧ s.wasOnGround = false) →
      (fallDamageStep s).health = s.health) ∧
    (s.vy ≤ TERMINAL_VELOCITY * 0.8 → (fallDamageStep s).health = s.health) ∧
    (s.onGround = true → s.wasOnGround = false → TERMINAL_VELOCITY * 0.8 < s.vy →
      s.invulnerableTime ≤ 0 → 0 < fallDamageAmt s.vy →
      (fallDamageStep s).health = max 0 (s.health - fallDamageAmt s.vy)) := by
  refine ⟨?_, ?_, ?_⟩
  · intro h
    rw [fallDamageStep, if_neg (by tauto)]
  · intro h
    rw [fallDamageStep, if_neg (by rintro ⟨h1, -⟩; linarith)]
  · intro h1 h2 h3 h4 h5
    rw [fallDamageStep, if_pos ⟨h3, h1, h2⟩, if_pos h5, damagePlayer,
      if_neg (by push_neg; exact h4)]

/-- Witness for the amended C7: landing at `vy = 17` costs
`⌊(17 - 12.6) * 5⌋ = 22` health. -/
theorem C7_fall_damage_amended_witness :
    (fallDamageStep c7WitnessState).health =
      max 0 (c7WitnessState.health - fallDamageAmt c7WitnessState.vy) :=
  (C7_fall_damage_amended c7WitnessState).2.2 rfl rfl
    (by norm_num [TERMINAL_VELOCITY, c7WitnessState])
    (by norm_num [c7WitnessState])
    (by rw [fallDamageAmt]; norm_num [TERMINAL_VELOCITY, c7WitnessState])

/- ## Claim C8 -/

lemma updateWeatherParticles_scalars (w : Weather) (g : Grid) (cam : Camera)
    (dt : ℚ) (u : Nat → ℚ) (k : Nat) :
    (updateWeatherParticles w g cam dt u k).1.wtype = w.wtype ∧
    (updateWeatherParticles w g cam dt u k).1.intensity = w.intensity ∧
    (updateWeatherParticles w g cam dt u k).1.timeLeft = w.timeLeft := by
  rw [updateWeatherParticles]
  split_ifs <;> exact ⟨rfl, rfl, rfl⟩

lemma updateWeatherParticles_clear (w : Weather) (g : Grid) (cam : Camera)
    (dt : ℚ) (u : Nat → ℚ) (k : Nat) (h : w.wtype = .clear) :
    (updateWeatherParticles w g cam dt u k).1 = w := by
  rw [updateWeatherParticles, if_pos h]

/-- C8: from every reachable weather state (active weather has positive
time left), one step only transitions clear to rain, clear to storm, or an
active weather to clear (or stays put); while a weather is active its
countdown strictly decreases; and on the step the countdown reaches zero
or below the type becomes clear with zero intensity and no particles;
reachability is preserved. -/
theorem C8_weather_transitions (w : Weather) (g : Grid) (cam : Camera)
    (dt trigger r0 r1 r2 : ℚ) (u : Nat → ℚ)
    (hdt : 0 < dt) (hr2 : 0 ≤ r2)
    (hinv : w.wtype ≠ .clear → 0 < w.timeLeft) :
    ((updateWeather w g cam dt trigger r0 r1 r2 u).1.wtype = w.wtype ∨
      (w.wtype = .clear ∧
        ((updateWeather w g cam dt trigger r0 r1 r2 u).1.wtype = .rain ∨
         (updateWeather w g cam dt trigger r0 r1 r2 u).1.wtype = .storm)) ∨
      (updateWeather w g cam dt trigger r0 r1 r2 u).1.wtype = .clear) ∧
    (w.wtype ≠ .clear →
      (updateWeather w g cam dt trigger r0 r1 r2 u).1.timeLeft < w.timeLeft) ∧
    (w.wtype ≠ .clear → w.timeLeft - dt / 60 ≤ 0 →
      (updateWeather w g cam dt trigger r0 r1 r2 u).1.wtype = .clear ∧
      (updateWeather w g cam dt trigger r0 r1 r2 u).1.intensity = 0 ∧
      (updateWeather w g cam dt trigger r0 r1 r2 u).1.particles = []) ∧
    ((updateWeather w g cam dt trigger r0 r1 r2 u).1.wtype ≠ .clear →
      0 < (updateWeather w g cam dt trigger r0 r1 r2 u).1.timeLeft) := by
  rw [updateWeather]
  by_cases htl : 0 < w.timeLeft
  · rw [if_pos htl]
    by_cases hend : w.timeLeft - dt / 60 ≤ 0
    · rw [if_pos hend]
      rw [updateWeatherParticles_clear _ _ _ _ _ _ rfl]
      refine ⟨Or.inr (Or.inr rfl), fun _ => by simpa using by linarith, fun _ _ => ⟨rfl, rfl, rfl⟩,
        fun hne => absurd rfl hne⟩
    · rw [if_neg hend]
      have hs := updateWeatherParticles_scalars
        { w with timeLeft := w.timeLeft - dt / 60 } g cam dt u 0
      refine ⟨Or.inl hs.1, fun _ => ?_, fun _ hc => absurd hc hend, fun _ => ?_⟩
      · rw [hs.2.2]
        simp only []
        linarith
      · rw [hs.2.2]
        simp only []
        linarith
  · rw [if_neg htl]
    have hclear : w.wtype = .clear := by
      by_contra hne
      exact htl (hinv hne)
    by_cases htr : trigger < 0.001 * dt
    · rw [if_pos htr, startNewWeather]
      by_cases hr0 : r0 < 0.7
      · rw [if_pos hr0]
        have hs := updateWeatherParticles_scalars
          { w with wtype := .rain, intensity := 0.3 + r1 * 0.7,
                   timeLeft := 30 + r2 * 120, particles := [] } g cam dt u 0
        refine ⟨Or.inr (Or.inl ⟨hclear, Or.inl hs.1⟩),
          fun hne => absurd hclear hne, fun hne => absurd hclear hne, fun _ => ?_⟩
        rw [hs.2.2]
        simp only []
        linarith
      · rw [if_neg hr0]
        have hs := updateWeatherParticles_scalars
          { w with wtype := .storm, intensity := 0.6 + r1 * 0.4,
                   timeLeft := 20 + r2 * 60, particles := [] } g cam dt u 0
        refine ⟨Or.inr (Or.inl ⟨hclear, Or.inr hs.1⟩),
          fun hne => absurd hclear hne, fun hne => absurd hclear hne, fun _ => ?_⟩
        rw [hs.2.2]
        simp only []
        linarith
    · rw [if_neg htr]
      rw [updateWeatherParticles_clear _ _ _ _ _ _ hclear]
      exact ⟨Or.inl rfl, fun hne => absurd hclear hne, fun hne => absurd hclear hne,
        fun hne => absurd hclear hne⟩

/- ## Generator helper lemmas (used by C1 and C9) -/

lemma buildWorldMain_cons (g : Grid) (x gY : Int) (p : Option Patch)
    (rest : List (Int × Option Patch)) :
    buildWorldMain g x ((gY, p) :: rest) =
      buildWorldMain (applyColumnMain g x gY p) (x + 1) rest := rfl

lemma buildWorldFull_cons (g : Grid) (x gY : Int) (b : Biome) (ov : ColOverlay)
    (rest : List (Int × Biome × ColOverlay)) :
    buildWorldFull g x ((gY, b, ov) :: rest) =
      buildWorldFull (applyColumnFull g x gY b ov) (x + 1) rest := rfl

/-- A fill write targets only its own column. -/
lemma fillColumnMain_left (g : Grid) (x gY X Y : Int) (h : X < x) :
    fillColumnMain g x gY X Y = g X Y := by
  rw [fillColumnMain, if_neg (by rintro ⟨rfl, -⟩; omega)]

lemma fillColumnFull_left (g : Grid) (x gY : Int) (b : Biome) (X Y : Int) (h : X < x) :
    fillColumnFull g x gY b X Y = g X Y := by
  rw [fillColumnFull, if_neg (by rintro ⟨rfl, -⟩; omega)]

/-- A whole column iteration of the main.js variant leaves every column
strictly left of it untouched (fill and patch both write columns ≥ x). -/
lemma applyColumnMain_left (g : Grid) (x gY : Int) (p : Option Patch)
    (X Y : Int) (h : X < x) :
    applyColumnMain g x gY p X Y = g X Y := by
  rw [applyColumnMain]
  cases p with
  | none => exact fillColumnMain_left g x gY X Y h
  | some pp =>
    rw [applyPatchOpt, applyPatch, if_neg (by rintro ⟨h1, -⟩; omega)]
    exact fillColumnMain_left g x gY X Y h

/-- A whole column iteration of the full variant leaves every column
strictly left of it untouched (fill, patch and tree write columns ≥ x). -/
lemma applyColumnFull_left (g : Grid) (x gY : Int) (b : Biome) (ov : ColOverlay)
    (X Y : Int) (h : X < x) :
    applyColumnFull g x gY b ov X Y = g X Y := by
  obtain ⟨patch, tree⟩ := ov
  rw [applyColumnFull]
  have hpatch : applyPatchOpt (fillColumnFull g x gY b) x patch X Y = g X Y := by
    cases patch with
    | none => exact fillColumnFull_left g x gY b X Y h
    | some pp =>
      rw [applyPatchOpt, applyPatch, if_neg (by rintro ⟨h1, -⟩; omega)]
      exact fillColumnFull_left g x gY b X Y h
  cases tree with
  | none => exact hpatch
  | some th =>
    rw [applyTreeOpt, applyTree, if_neg (by rintro ⟨rfl, -⟩; omega)]
    exact hpatch

/-- The columns processed at indices ≥ x never change a cell left of x
(main.js variant). -/
lemma buildWorldMain_preserve (l : List (Int × Option Patch)) :
    ∀ (g : Grid) (x X Y : Int), X < x → buildWorldMain g x l X Y = g X Y := by
  induction l with
  | nil =>
    intro g x X Y h
    rfl
  | cons a t ih =>
    intro g x X Y h
    obtain ⟨gY, p⟩ := a
    rw [buildWorldMain_cons, ih _ _ _ _ (by omega)]
    exact applyColumnMain_left g x gY p X Y h

/-- The columns processed at indices ≥ x never change a cell left of x
(full variant). -/
lemma buildWorldFull_preserve (l : List (Int × Biome × ColOverlay)) :
    ∀ (g : Grid) (x X Y : Int), X < x → buildWorldFull g x l X Y = g X Y := by
  induction l with
  | nil =>
    intro g x X Y h
    rfl
  | cons a t ih =>
    intro g x X Y h
    obtain ⟨gY, b, ov⟩ := a
    rw [buildWorldFull_cons, ih _ _ _ _ (by omega)]
    exact applyColumnFull_left g x gY b ov X Y h

lemma buildWorldFull_append (l1 l2 : List (Int × Biome × ColOverlay)) :
    ∀ (g : Grid) (x : Int),
      buildWorldFull g x (l1 ++ l2) =
        buildWorldFull (buildWorldFull g x l1) (x + (l1.length : Int)) l2 := by
  induction l1 with
  | nil =>
    intro g x
    simp [buildWorldFull]
  | cons a t ih =>
    intro g x
    obtain ⟨gY, b, ov⟩ := a
    rw [List.cons_append, buildWorldFull_cons, buildWorldFull_cons, ih]
    rw [List.length_cons]
    push_cast
    ring_nf

/-- The in-bounds content a full-variant column iteration gives its own
column does not depend on the incoming grid: the layer fill writes every
row first, and the patch test only reads the cell it guards. -/
lemma fillColumnFull_self (g1 g2 : Grid) (x gY : Int) (b : Biome) (Y : Int)
    (hY : 0 ≤ Y) (hY2 : Y < WORLD_HEIGHT) :
    fillColumnFull g1 x gY b x Y = fillColumnFull g2 x gY b x Y := by
  have e : ∀ g : Grid, fillColumnFull g x gY b x Y =
      (if gY + 20 < Y then TILE.STONE
       else if gY + 3 < Y then TILE.DIRT
       else if Y = gY then (if b = .desert then TILE.SAND else TILE.GRASS)
       else if gY < Y ∧ Y ≤ gY + 3 then (if b = .desert then TILE.SAND else TILE.DIRT)
       else TILE.AIR) := by
    intro g
    rw [fillColumnFull, if_pos (show x = x ∧ 0 ≤ Y ∧ Y < WORLD_HEIGHT from ⟨rfl, hY, hY2⟩)]
  rw [e g1, e g2]

lemma applyColumnFull_self (g1 g2 : Grid) (x gY : Int) (b : Biome) (ov : ColOverlay)
    (Y : Int) (hY : 0 ≤ Y) (hY2 : Y < WORLD_HEIGHT) :
    applyColumnFull g1 x gY b ov x Y = applyColumnFull g2 x gY b ov x Y := by
  obtain ⟨patch, tree⟩ := ov
  have hf := fillColumnFull_self g1 g2 x gY b Y hY hY2
  have hp : applyPatchOpt (fillColumnFull g1 x gY b) x patch x Y =
      applyPatchOpt (fillColumnFull g2 x gY b) x patch x Y := by
    cases patch with
    | none => exact hf
    | some pp =>
      rw [applyPatchOpt, applyPatchOpt, applyPatch, applyPatch, hf]
  rw [applyColumnFull, applyColumnFull]
  cases tree with
  | none => exact hp
  | some th =>
    rw [applyTreeOpt, applyTreeOpt, applyTree, applyTree, hp]

lemma find?_congr {α : Type} (p q : α → Bool) :
    ∀ l : List α, (∀ a ∈ l, p a = q a) → l.find? p = l.find? q := by
  intro l
  induction l with
  | nil =>
    intro _
    rfl
  | cons a t ih =>
    intro h
    rw [List.find?_cons, List.find?_cons, h a (List.mem_cons_self a t),
      ih (fun b hb => h b (List.mem_cons_of_mem a hb))]

/- ## Claim C1 -/

/-- When every ambient roll is under 0.1, the main.js overlay loop agrees
with its rational-free computation twin. -/
lemma overlaysLoopMain_all (u : Nat → ℚ) (hu : ∀ j, u j < 0.1) :
    ∀ (l : List Int) (k a : Nat),
      overlaysLoopMain u l k a = overlaysLoopMainAll l a := by
  intro l
  induction l with
  | nil =>
    intro k a
    rfl
  | cons gY rest ih =>
    intro k a
    simp only [overlaysLoopMain, overlaysLoopMainAll, if_pos (hu k)]
    rw [ih]

/-- When no ambient roll is under 0.1, the main.js overlay loop places no
patch anywhere and never consumes the seeded stream. -/
lemma overlaysLoopMain_none (u : Nat → ℚ) (hu : ∀ j, ¬ u j < 0.1) :
    ∀ (l : List Int) (k a : Nat),
      overlaysLoopMain u l k a = (l.map (fun _ => (none : Option Patch)), a) := by
  intro l
  induction l with
  | nil =>
    intro k a
    rfl
  | cons gY rest ih =>
    intro k a
    simp only [overlaysLoopMain, overlaysLoopMainAll, if_neg (hu k), List.map_cons]
    rw [ih]

/-- C1 (divergence witness for the code bug): the main.js `generateWorld`
consults the unseeded ambient `Math.random()` for the stone-patch trigger,
so the same seed 1337 produces different grids under two different ambient
streams — cell (0, 71) is Stone when every trigger roll is 0 and Dirt when
every roll is 1/2 — contradicting the claimed seed-determinism of tile
placement; the full variant draws this trigger from the seeded stream
instead. -/
theorem C1_unseeded_patch_divergence :
    generateWorldMain 1337 (fun _ => 0) airGrid 0 71 = TILE.STONE ∧
    generateWorldMain 1337 (fun _ => 1/2) airGrid 0 71 = TILE.DIRT ∧
    TILE.STONE ≠ TILE.DIRT := by
  refine ⟨?_, ?_, by decide⟩
  · rw [generateWorldMain]
    simp only [mainColumns]
    rw [overlaysLoopMain_all (fun _ => 0) (fun _ => by norm_num)]
    decide
  · rw [generateWorldMain]
    simp only [mainColumns]
    rw [overlaysLoopMain_none (fun _ => 1/2) (fun _ => by norm_num)]
    decide

/- ## Claim C9 -/

/-- Concrete generation facts at seed 1337: the first 100 columns, then
column 100 itself — ground height 65, forest biome, a stone patch at rows
79-81 and no tree — then the rest. -/
lemma fullColumns_1337_at_100 :
    ((fullColumns 1337).take 100).length = 100 ∧
    (fullColumns 1337).drop 100 =
      (65, Biome.forest,
        ({ patch := some { sy := 79, sh := 3, sw := 6 }, tree := none } : ColOverlay)) ::
        (fullColumns 1337).drop 101 := by
  constructor
  · decide
  · decide

/-- Every in-bounds cell of column 100 of the seed-1337 full-variant world
is produced by column 100's own fill/patch/tree iteration: the earlier
columns' writes to it are overwritten by its layer fill, and the later
columns never write left of themselves. -/
lemma worldFull1337_col100 (y : Int) (h0 : 0 ≤ y) (h1 : y < WORLD_HEIGHT) :
    generateWorldFull 1337 airGrid 100 y =
      applyColumnFull airGrid 100 65 Biome.forest
        { patch := some { sy := 79, sh := 3, sw := 6 }, tree := none } 100 y := by
  rw [generateWorldFull]
  conv_lhs => rw [← List.take_append_drop 100 (fullColumns 1337)]
  rw [buildWorldFull_append]
  have hidx : (0 : Int) + (((fullColumns 1337).take 100).length : Int) = 100 := by
    rw [fullColumns_1337_at_100.1]
    norm_num
  rw [hidx, fullColumns_1337_at_100.2, buildWorldFull_cons,
    buildWorldFull_preserve _ _ _ _ _ (by norm_num : (100:Int) < 100 + 1)]
  exact applyColumnFull_self _ airGrid 100 65 Biome.forest _ y h0 h1

/-- C9: on the freshly generated seed-1337 world, the spawn scan of the
world-center column finds its first Grass at row 65 (the column's ground
height), and `spawnPlayerOnSurface` places the actor at the center column's
x and exactly two tile heights above that Grass row. -/
theorem C9_spawn_seed1337 :
    spawnScan (generateWorldFull 1337 airGrid) = some 65 ∧
    (spawnPlayerOnSurface (generateWorldFull 1337 airGrid) { x := 2400, y := 0 }).x =
      100 * TILE_SIZE ∧
    (spawnPlayerOnSurface (generateWorldFull 1337 airGrid) { x := 2400, y := 0 }).y =
      ((65 : ℚ) - 2) * TILE_SIZE := by
  have hscan : spawnScan (generateWorldFull 1337 airGrid) = some 65 := by
    rw [spawnScan]
    rw [find?_congr _ (fun y : Nat =>
        applyColumnFull airGrid 100 65 Biome.forest
          { patch := some { sy := 79, sh := 3, sw := 6 }, tree := none } 100 (y : Int) ==
        TILE.GRASS) _ ?_]
    · decide
    · intro y hy
      rw [List.mem_range] at hy
      have hyH : (y : Int) < WORLD_HEIGHT := by
        have e2 : WORLD_HEIGHT.toNat = 120 := rfl
        rw [e2] at hy
        rw [show WORLD_HEIGHT = (120:Int) from rfl]
        omega
      have hb : inBounds (WORLD_WIDTH / 2) (y : Int) :=
        ⟨by decide, by omega, by decide, hyH⟩
      have hcell : getTile (generateWorldFull 1337 airGrid) (WORLD_WIDTH / 2) (y : Int) =
          applyColumnFull airGrid 100 65 Biome.forest
            { patch := some { sy := 79, sh := 3, sw := 6 }, tree := none } 100 (y : Int) := by
        rw [getTile, if_pos hb]
        have h100 : WORLD_WIDTH / 2 = (100 : Int) := by decide
        rw [h100]
        exact worldFull1337_col100 (y : Int) (by omega) hyH
      rw [hcell]
  refine ⟨hscan, ?_, ?_⟩
  · rw [spawnPlayerOnSurface, hscan]
    have h100 : WORLD_WIDTH / 2 = (100 : Int) := by decide
    rw [h100]
    norm_num
  · rw [spawnPlayerOnSurface, hscan]
    push_cast
    norm_num

/-- Witness for C8: a rain with 0.1 seconds left, stepped by one second of
game time, expires into the clear state with zero intensity and no
particles. -/
theorem C8_weather_transitions_witness :
    (updateWeather c8Rain airGrid c8Cam 60 1 0 0 0 (fun _ => 1)).1.wtype = .clear ∧
    (updateWeather c8Rain airGrid c8Cam 60 1 0 0 0 (fun _ => 1)).1.intensity = 0 ∧
    (updateWeather c8Rain airGrid c8Cam 60 1 0 0 0 (fun _ => 1)).1.particles = [] :=
  (C8_weather_transitions c8Rain airGrid c8Cam 60 1 0 0 0 (fun _ => 1)
    (by norm_num) (by norm_num)
    (fun _ => by norm_num [c8Rain])).2.2.1
    (by decide) (by norm_num [c8Rain])

end Terraria
